import Mathlib

/-!
Verification development for the `kt` header-only concurrency library
(`async_queue.hpp`, `locker.hpp`, `lockable.hpp`).

The embedding is sequential: every operation of `async_queue` executes its
critical section atomically (in the source, the section is delimited by a
scoped guard obtained from `lockable_t::lock`, released on every exit path,
including exceptional ones).  The condition variable `m_cv` is modelled by
recording, as an explicit output of each operation, which notification call
the operation performs after (or, for the `active` setter, inside) its
critical section.  `pop`'s blocking wait is modelled by the wait predicate
`wait_pred` (the lambda passed to `m_cv.wait`); the `pop` function gives the
result of the code that runs once the thread has proceeded past the wait.
-/

namespace KT

/-- Which condition-variable notification an operation performs. -/
inductive notify_t : Type
  | one
  | all
deriving DecidableEq, Repr

/-- State of `kt::async_queue<T>`: the deque `m_queue` (front = head of the
list, back = end of the list) and the halt flag `m_active` (default `true`). -/
structure async_queue (T : Type) where
  m_queue : List T
  m_active : Bool
deriving DecidableEq, Repr

namespace async_queue

variable {T : Type}

/-- `async_queue() = default`: empty deque, `m_active = true` (member
initialiser at declaration). -/
def init : async_queue T := { m_queue := [], m_active := true }

/-- `emplace(U&&... u)`: under the lock, if `m_active`, `emplace_back` the
constructed item; then `notify_one`.  The notification happens whether or not
the item was accepted. -/
def emplace (s : async_queue T) (t : T) : async_queue T × notify_t :=
  ((if s.m_active then { s with m_queue := s.m_queue ++ [t] } else s), .one)

/-- `push(T&&)` / `push(T const&)`: both forward to `emplace`. -/
def push (s : async_queue T) (t : T) : async_queue T × notify_t :=
  s.emplace t

/-- Bulk `push(C<T, Args...>&& ts)`: under the lock, if `m_active`, move the
container's items to the back of the queue in order; then `notify_all`. -/
def push_bulk (s : async_queue T) (ts : List T) : async_queue T × notify_t :=
  ((if s.m_active then { s with m_queue := s.m_queue ++ ts } else s), .all)

/-- The predicate the condition-variable wait in `pop` re-checks on every
wake: `!m_queue.empty() || !m_active`.  `pop` proceeds past the wait exactly
when this is `true`; in particular it holds immediately (no wait at all) on
an empty inactive queue. -/
def wait_pred (s : async_queue T) : Bool :=
  !s.m_queue.isEmpty || !s.m_active

/-- The body of `pop()` once past the wait: if `m_active && !m_queue.empty()`,
move out the front item, `pop_front`, and return it; otherwise return an empty
optional.  Returns the optional result together with the post state. -/
def pop (s : async_queue T) : Option T × async_queue T :=
  if s.m_active && !s.m_queue.isEmpty then
    (s.m_queue.head?, { s with m_queue := s.m_queue.tail })
  else
    (none, s)

/-- `clear(bool active = false)`: under the lock, move the whole deque out
into `ret` and clear the live deque, set `m_active` to the argument; then
`notify_all`; return `ret`. -/
def clear (s : async_queue T) (active : Bool := false) :
    List T × async_queue T × notify_t :=
  (s.m_queue, { m_queue := [], m_active := active }, .all)

/-- `~async_queue()`: the polymorphic destructor calls `clear()` (with the
default argument `false`). -/
def destroy (s : async_queue T) : List T × async_queue T × notify_t :=
  s.clear

/-- `empty() const`: under the lock, read `m_queue.empty()`. -/
def empty (s : async_queue T) : Bool :=
  s.m_queue.isEmpty

/-- `active() const`: under the lock, read `m_active`. -/
def active_get (s : async_queue T) : Bool :=
  s.m_active

/-- `active(bool set)`: under the lock, write `m_active` and `notify_all`. -/
def active_set (s : async_queue T) (b : Bool) : async_queue T × notify_t :=
  ({ s with m_active := b }, .all)

/-- Fold of single-item pushes: push `ts` in order via `emplace`, discarding
the notifications. -/
def push_list (s : async_queue T) : List T → async_queue T
  | [] => s
  | t :: ts => push_list (s.emplace t).1 ts

/-- Iterate `pop` `n` times, collecting the successfully returned items in
order together with the final state. -/
def pop_n (s : async_queue T) : Nat → List T × async_queue T
  | 0 => ([], s)
  | n + 1 =>
    match s.pop with
    | (some t, s') =>
      let r := pop_n s' n
      (t :: r.1, r.2)
    | (none, s') => ([], s')

/-- `emplace` with a fallible item constructor (`T`'s construction from the
forwarded arguments may throw).  Under the lock, if `m_active`, the item is
constructed by `emplace_back`; if construction throws, `std::deque`'s
`emplace_back` (strong guarantee at the back) leaves the deque unchanged, the
scoped guard releases the lock, and the exception propagates, so `notify_one`
is never reached; `m_active` is never written.  If `m_active` is false the
arguments are never used, so nothing can throw.  The result is the exception
or unit, the post state, and the notification performed (if any). -/
def emplace_fallible {E : Type} (s : async_queue T) (mk : Except E T) :
    Except E Unit × async_queue T × Option notify_t :=
  if s.m_active then
    match mk with
    | .error e => (.error e, s, none)
    | .ok t => (.ok (), { s with m_queue := s.m_queue ++ [t] }, some .one)
  else
    (.ok (), s, some .one)

/-- Bulk `push` with fallible per-item moves: `std::move(begin, end,
back_inserter)` inserts items one at a time, so a throw from the `k`-th
item's move construction leaves the first `k - 1` items already inserted
(no all-or-nothing guarantee), the lock released and `notify_all` skipped. -/
def push_bulk_fallible {E : Type} (s : async_queue T) (mks : List (Except E T)) :
    Except E Unit × async_queue T × Option notify_t :=
  if s.m_active then
    match mks with
    | [] => (.ok (), s, some .all)
    | m :: rest =>
      match m with
      | .error e => (.error e, s, none)
      | .ok t =>
        match push_bulk_fallible { s with m_queue := s.m_queue ++ [t] } rest with
        | (.ok u, s', _) => (.ok u, s', some .all)
        | (.error e, s', _) => (.error e, s', none)
  else
    (.ok (), s, some .all)

end async_queue

/-!
Model of `locker.hpp`: `locker_t<M, T...>` owns a `lockable_t<M>` and a
`std::tuple<T...>`; `lock()` returns a `locked_t` accessor holding a guard on
the mutex and a reference to the tuple; `lock() const` returns the accessor
over `T const...`.  The accessor exposes `get<U>()` (`std::get` by type,
well-formed only when exactly one tuple element has type `U`) and `get<I>()`
(`std::get` by index).  Element types are represented by codes `ty` with
interpretation `ty.interp`; the tuple is the heterogeneous vector `hvec`.
The guard itself carries no data relevant to the values, so the accessor is
modelled by the borrowed tuple; a write through the mutable accessor is a
`store` producing the updated locker observed by the next `lock()`.
-/

/-- Codes for tuple element types. -/
inductive ty : Type
  | nat
  | bool
  | str
deriving DecidableEq, Repr

/-- Interpretation of a type code. -/
def ty.interp : ty → Type
  | .nat => Nat
  | .bool => Bool
  | .str => String

/-- Heterogeneous vector: the model of `std::tuple<T...>`. -/
def hvec : List ty → Type
  | [] => PUnit
  | c :: cs => c.interp × hvec cs

namespace hvec

/-- `std::get<I>(tuple)`: the element at static index `I`. -/
def get : (cs : List ty) → hvec cs → (i : Fin cs.length) → (cs.get i).interp
  | _ :: _, v, ⟨0, _⟩ => v.1
  | _ :: cs, v, ⟨j + 1, h⟩ => get cs v.2 ⟨j, Nat.lt_of_succ_lt_succ h⟩

/-- `std::get<U>(tuple)`: the element whose static type is `U`; the model
scans for the first element with code `c` (in the well-formed case `U` occurs
exactly once, so first = unique). -/
def get_ty : (cs : List ty) → hvec cs → (c : ty) → Option c.interp
  | [], _, _ => none
  | c' :: cs, v, c => if h : c' = c then some (h ▸ v.1) else get_ty cs v.2 c

/-- Update the element at index `i` (a write through a mutable reference
obtained from `std::get<I>`). -/
def set : (cs : List ty) → hvec cs → (i : Fin cs.length) → (cs.get i).interp → hvec cs
  | _ :: _, v, ⟨0, _⟩, x => (x, v.2)
  | _ :: cs, v, ⟨j + 1, h⟩, x => (v.1, set cs v.2 ⟨j, Nat.lt_of_succ_lt_succ h⟩ x)

end hvec

/-- `locker_t<M, T...>`: storage for a mutex and a `std::tuple<T...>`.  The
mutex (`mutable lockable_t<M>`) guards the tuple and carries no value state. -/
structure locker_t (cs : List ty) where
  tuple : hvec cs

/-- `locked_t<L, M, T...>`: the accessor returned by `lock()`, holding an
acquired guard and the borrowed tuple. -/
structure locked_t (cs : List ty) where
  tuple : hvec cs

namespace locked_t

/-- Accessor `get<I>()`: `std::get<I>(tuple)`. -/
def get {cs : List ty} (a : locked_t cs) (i : Fin cs.length) : (cs.get i).interp :=
  hvec.get cs a.tuple i

/-- Accessor `get<U>()`: `std::get<U>(tuple)`. -/
def get_ty {cs : List ty} (a : locked_t cs) (c : ty) : Option c.interp :=
  hvec.get_ty cs a.tuple c

end locked_t

namespace locker_t

/-- `lock()` (mutable overload): acquires the guard and returns the accessor
over the owned tuple. -/
def lock {cs : List ty} (l : locker_t cs) : locked_t cs :=
  ⟨l.tuple⟩

/-- `lock() const`: acquires the guard and returns the accessor over
`T const...`; it borrows the same tuple, read-only. -/
def lock_const {cs : List ty} (l : locker_t cs) : locked_t cs :=
  ⟨l.tuple⟩

/-- A write of `v` to element `i` through the mutable accessor of `lock()`:
the locker's owned tuple afterwards. -/
def store {cs : List ty} (l : locker_t cs) (i : Fin cs.length)
    (v : (cs.get i).interp) : locker_t cs :=
  ⟨hvec.set cs l.tuple i v⟩

end locker_t

/-! Helper lemmas shared by the claim theorems. -/

namespace async_queue

variable {T : Type}

/-- While active, a fold of single-item pushes appends the pushed items, in
order, at the back, and leaves the queue active. -/
theorem push_list_spec (ps : List T) (s : async_queue T) (h : s.m_active = true) :
    push_list s ps = ⟨s.m_queue ++ ps, true⟩ := by
  induction ps generalizing s with
  | nil => cases s; simp_all [push_list]
  | cons p ps ih =>
      cases s
      subst h
      simp [push_list, emplace, ih]

/-- Draining an active queue: `length` many pops return the whole queue in
order and leave it empty and active. -/
theorem pop_n_drain (q : List T) :
    pop_n (⟨q, true⟩ : async_queue T) q.length = (q, ⟨[], true⟩) := by
  induction q with
  | nil => simp [pop_n]
  | cons x q ih => simp [pop_n, pop, ih]

end async_queue

/-- With exactly one occurrence of the type code `c` among the element types,
`get_ty` returns the element at the (unique) index of that type. -/
theorem hvec.get_ty_unique :
    ∀ (cs : List ty) (v : hvec cs) (c : ty), cs.count c = 1 →
      ∃ (j : Fin cs.length) (h : cs.get j = c),
        hvec.get_ty cs v c = some (h ▸ hvec.get cs v j) := by
  intro cs
  induction cs with
  | nil => intro v c hc; simp at hc
  | cons c' cs ih =>
      intro v c hc
      by_cases h : c' = c
      · subst h
        refine ⟨⟨0, Nat.succ_pos _⟩, rfl, ?_⟩
        simp [hvec.get_ty, hvec.get]
      · have hc' : cs.count c = 1 := by
          simpa [List.count_cons, h] using hc
        obtain ⟨j, hj, hv⟩ := ih v.2 c hc'
        refine ⟨⟨j.1 + 1, Nat.succ_lt_succ j.2⟩, hj, ?_⟩
        have hstep : hvec.get_ty (c' :: cs) v c = hvec.get_ty cs v.2 c := by
          simp [hvec.get_ty, h]
        rw [hstep]
        exact hv

/-- Reading back an element just written through `set`. -/
theorem hvec.get_set :
    ∀ (cs : List ty) (v : hvec cs) (i : Fin cs.length) (x : (cs.get i).interp),
      hvec.get cs (hvec.set cs v i x) i = x := by
  intro cs
  induction cs with
  | nil => intro v i x; exact absurd i.2 (Nat.not_lt_zero _)
  | cons c cs ih =>
      intro v i x
      match i with
      | ⟨0, _⟩ => simp [hvec.get, hvec.set]
      | ⟨j + 1, h⟩ =>
          simpa [hvec.get, hvec.set] using
            ih v.2 ⟨j, Nat.lt_of_succ_lt_succ h⟩ x

open async_queue

/-- C1: items pushed (via `push`/`emplace`) while the queue is active are
appended at the back in program order, and successive successful `pop`s
remove from the front, so a producer's pushes `p1..pn` into an active queue
are returned by pops exactly as `p1..pn` in that order (after any items
already queued), leaving the queue empty and active. -/
theorem C1_fifo_order (T : Type) (s : async_queue T) (ps : List T)
    (h : s.m_active = true) :
    (push_list s ps).m_queue = s.m_queue ++ ps
    ∧ pop_n (push_list s ps) (s.m_queue.length + ps.length)
        = (s.m_queue ++ ps, ⟨[], true⟩) := by
  rw [push_list_spec ps s h]
  refine ⟨rfl, ?_⟩
  have := pop_n_drain (T := T) (s.m_queue ++ ps)
  simpa using this

/-- C1 witness: pushing `[1, 2, 3]` into the fresh (active, empty) queue and
popping three times returns exactly `[1, 2, 3]`. -/
theorem C1_fifo_order_witness :
    (init : async_queue Nat).m_active = true
    ∧ ((push_list (init : async_queue Nat) [1, 2, 3]).m_queue
          = (init : async_queue Nat).m_queue ++ [1, 2, 3]
        ∧ pop_n (push_list (init : async_queue Nat) [1, 2, 3])
            ((init : async_queue Nat).m_queue.length + [1, 2, 3].length)
            = ((init : async_queue Nat).m_queue ++ [1, 2, 3], ⟨[], true⟩)) :=
  ⟨rfl, C1_fifo_order Nat init [1, 2, 3] rfl⟩

/-- C2: once `pop` proceeds past the wait (the wait predicate holds), it
returns an item iff the queue is active and non-empty, in which case it
removes and returns the front item; while inactive it returns no value and
changes nothing, even on a non-empty queue; and on an empty inactive queue
the wait predicate already holds (no wait) and `pop` returns no value. -/
theorem C2_pop_result (T : Type) (s : async_queue T)
    (hw : wait_pred s = true) :
    ((pop s).1.isSome = true ↔ (s.m_active = true ∧ s.m_queue ≠ []))
    ∧ (∀ x q, s.m_active = true → s.m_queue = x :: q →
        pop s = (some x, ⟨q, true⟩))
    ∧ (s.m_active = false → pop s = (none, s))
    ∧ (s.m_active = false → s.m_queue = [] →
        wait_pred s = true ∧ pop s = (none, s)) := by
  clear hw
  obtain ⟨q, a⟩ := s
  cases a <;> cases q <;> simp [pop, wait_pred]

/-- C2 witness: on the inactive queue holding `[5]`, the wait predicate holds
and `pop` returns no value. -/
theorem C2_pop_result_witness :
    wait_pred (⟨[5], false⟩ : async_queue Nat) = true
    ∧ (((pop (⟨[5], false⟩ : async_queue Nat)).1.isSome = true
          ↔ ((⟨[5], false⟩ : async_queue Nat).m_active = true
              ∧ (⟨[5], false⟩ : async_queue Nat).m_queue ≠ []))
        ∧ (∀ x q, (⟨[5], false⟩ : async_queue Nat).m_active = true →
            (⟨[5], false⟩ : async_queue Nat).m_queue = x :: q →
            pop (⟨[5], false⟩ : async_queue Nat) = (some x, ⟨q, true⟩))
        ∧ ((⟨[5], false⟩ : async_queue Nat).m_active = false →
            pop (⟨[5], false⟩ : async_queue Nat) = (none, ⟨[5], false⟩))
        ∧ ((⟨[5], false⟩ : async_queue Nat).m_active = false →
            (⟨[5], false⟩ : async_queue Nat).m_queue = [] →
            wait_pred (⟨[5], false⟩ : async_queue Nat) = true
            ∧ pop (⟨[5], false⟩ : async_queue Nat) = (none, ⟨[5], false⟩))) :=
  ⟨by decide, C2_pop_result Nat ⟨[5], false⟩ (by decide)⟩

/-- C3: while inactive, `push`, `emplace` and the bulk `push` return normally
(still performing their notification) but leave the state unchanged — the
item(s) are silently discarded — so a subsequent `empty()` sees no effect. -/
theorem C3_drop_when_inactive (T : Type) (s : async_queue T) (t : T)
    (ts : List T) (h : s.m_active = false) :
    emplace s t = (s, .one)
    ∧ push s t = (s, .one)
    ∧ push_bulk s ts = (s, .all)
    ∧ empty (emplace s t).1 = empty s
    ∧ empty (push_bulk s ts).1 = empty s := by
  simp [emplace, push, push_bulk, h]

/-- C3 witness: pushing `7` into the inactive queue holding `[1]` has no
effect. -/
theorem C3_drop_when_inactive_witness :
    (⟨[1], false⟩ : async_queue Nat).m_active = false
    ∧ (emplace (⟨[1], false⟩ : async_queue Nat) 7 = (⟨[1], false⟩, .one)
        ∧ push (⟨[1], false⟩ : async_queue Nat) 7 = (⟨[1], false⟩, .one)
        ∧ push_bulk (⟨[1], false⟩ : async_queue Nat) [8, 9] = (⟨[1], false⟩, .all)
        ∧ empty (emplace (⟨[1], false⟩ : async_queue Nat) 7).1
            = empty (⟨[1], false⟩ : async_queue Nat)
        ∧ empty (push_bulk (⟨[1], false⟩ : async_queue Nat) [8, 9]).1
            = empty (⟨[1], false⟩ : async_queue Nat)) :=
  ⟨rfl, C3_drop_when_inactive Nat ⟨[1], false⟩ 7 [8, 9] rfl⟩

/-- C4: `clear a` returns exactly the items present at the call, in order,
leaves the live sequence empty and sets the active flag to `a`; the default
argument is `false`; after `clear true` the queue is active again and a
subsequent push/pop pair behaves normally (the pushed item is popped back and
the queue returns to the post-clear state). -/
theorem C4_clear_semantics (T : Type) (s : async_queue T) (a : Bool) (t : T) :
    clear s a = (s.m_queue, ⟨[], a⟩, .all)
    ∧ clear s = clear s false
    ∧ active_get (clear s true).2.1 = true
    ∧ pop ((clear s true).2.1.emplace t).1 = (some t, (clear s true).2.1) := by
  simp [clear, active_get, emplace, pop]

/-- C5: when the item's construction throws during a single-item
`emplace`/`push` on an active queue, the exception propagates (no
notification is reached), the scoped guard has released the lock, and the
state — sequence and active flag — is unchanged; on success the item is
fully inserted.  The bulk path gives no such all-or-nothing guarantee: a
concrete bulk push whose second item's move throws leaves the first item
inserted. -/
theorem C5_emplace_exception_safety (T E : Type) (s : async_queue T) (e : E)
    (t : T) (h : s.m_active = true) :
    emplace_fallible s (Except.error e) = (Except.error e, s, none)
    ∧ (emplace_fallible s (Except.error e)).2.1.m_active = s.m_active
    ∧ emplace_fallible s (Except.ok t : Except E T)
        = (Except.ok (), ⟨s.m_queue ++ [t], s.m_active⟩, some .one)
    ∧ push_bulk_fallible (⟨[], true⟩ : async_queue Nat)
        [(Except.ok 1 : Except Nat Nat), Except.error 0]
        = (Except.error 0, ⟨[1], true⟩, none) := by
  obtain ⟨q, a⟩ := s
  cases a
  · exact absurd h (by simp)
  · refine ⟨?_, ?_, ?_, ?_⟩ <;>
      simp [emplace_fallible, push_bulk_fallible]

/-- C5 witness: on the active queue holding `[4]`, a throwing construction
leaves the state unchanged and a successful one appends the item. -/
theorem C5_emplace_exception_safety_witness :
    (⟨[4], true⟩ : async_queue Nat).m_active = true
    ∧ (emplace_fallible (⟨[4], true⟩ : async_queue Nat)
          (Except.error 3 : Except Nat Nat)
          = (Except.error 3, ⟨[4], true⟩, none)
        ∧ (emplace_fallible (⟨[4], true⟩ : async_queue Nat)
              (Except.error 3 : Except Nat Nat)).2.1.m_active
            = (⟨[4], true⟩ : async_queue Nat).m_active
        ∧ emplace_fallible (⟨[4], true⟩ : async_queue Nat)
            (Except.ok 9 : Except Nat Nat)
            = (Except.ok (), ⟨[4] ++ [9], true⟩, some .one)
        ∧ push_bulk_fallible (⟨[], true⟩ : async_queue Nat)
            [(Except.ok 1 : Except Nat Nat), Except.error 0]
            = (Except.error 0, ⟨[1], true⟩, none)) :=
  ⟨rfl, C5_emplace_exception_safety Nat Nat ⟨[4], true⟩ 3 9 rfl⟩

/-- C6: a default-constructed `async_queue` is active and empty. -/
theorem C6_initial_state (T : Type) :
    (init : async_queue T).m_active = true
    ∧ (init : async_queue T).m_queue = []
    ∧ active_get (init : async_queue T) = true
    ∧ empty (init : async_queue T) = true := by
  simp [init, active_get, empty]

/-- C7: single-item `push`/`emplace` perform `notify_one`; the bulk `push`,
`clear` and the `active` setter perform `notify_all`; and after the flag is
flipped to `false` via the setter, the wait predicate holds (pending `pop`s
are unblocked) and `pop` returns no value. -/
theorem C7_notifications (T : Type) (s : async_queue T) (t : T) (ts : List T)
    (b : Bool) :
    (emplace s t).2 = .one
    ∧ (push s t).2 = .one
    ∧ (push_bulk s ts).2 = .all
    ∧ (clear s b).2.2 = .all
    ∧ (active_set s b).2 = .all
    ∧ wait_pred (active_set s false).1 = true
    ∧ (pop (active_set s false).1).1 = none := by
  simp [emplace, push, push_bulk, clear, active_set, wait_pred, pop]

/-- C8: the accessor returned by `lock()` exposes exactly the owned tuple:
`get<I>()` is the element at index `I`, `get<U>()` (with `U` occurring
exactly once) is the element at the unique index of that type, the const
`lock()` overload yields the same elements, and a write through the mutable
accessor is observed by the next read of that element. -/
theorem C8_locker_access (cs : List ty) (l : locker_t cs) (c : ty)
    (i : Fin cs.length) (v : (cs.get i).interp) (hc : cs.count c = 1) :
    (l.lock_const).get i = (l.lock).get i
    ∧ (l.lock_const).get_ty c = (l.lock).get_ty c
    ∧ (l.lock).get i = hvec.get cs l.tuple i
    ∧ (∃ (j : Fin cs.length) (h : cs.get j = c),
        (l.lock).get_ty c = some (h ▸ (l.lock).get j))
    ∧ ((l.store i v).lock).get i = v := by
  refine ⟨rfl, rfl, rfl, ?_, ?_⟩
  · exact hvec.get_ty_unique cs l.tuple c hc
  · exact hvec.get_set cs l.tuple i v

/-- C8 witness: a locker over `(Nat, Bool)` with tuple `(3, true)`; the type
`Bool` occurs exactly once, lookup by type and by index agree with the owned
values, and writing `7` to index `0` is read back. -/
theorem C8_locker_access_witness :
    ([ty.nat, ty.bool].count ty.bool = 1)
    ∧ (((⟨((3 : Nat), true, PUnit.unit)⟩ : locker_t [ty.nat, ty.bool]).lock_const).get
          ⟨0, by decide⟩
        = ((⟨((3 : Nat), true, PUnit.unit)⟩ : locker_t [ty.nat, ty.bool]).lock).get
          ⟨0, by decide⟩
      ∧ (((⟨((3 : Nat), true, PUnit.unit)⟩ : locker_t [ty.nat, ty.bool]).lock_const).get_ty
            ty.bool
          = ((⟨((3 : Nat), true, PUnit.unit)⟩ : locker_t [ty.nat, ty.bool]).lock).get_ty
            ty.bool)
      ∧ ((⟨((3 : Nat), true, PUnit.unit)⟩ : locker_t [ty.nat, ty.bool]).lock).get
          ⟨0, by decide⟩
          = hvec.get [ty.nat, ty.bool]
            (⟨((3 : Nat), true, PUnit.unit)⟩ : locker_t [ty.nat, ty.bool]).tuple
            ⟨0, by decide⟩
      ∧ (∃ (j : Fin ([ty.nat, ty.bool].length))
            (h : [ty.nat, ty.bool].get j = ty.bool),
          ((⟨((3 : Nat), true, PUnit.unit)⟩ : locker_t [ty.nat, ty.bool]).lock).get_ty
              ty.bool
            = some (h ▸ ((⟨((3 : Nat), true, PUnit.unit)⟩ :
                locker_t [ty.nat, ty.bool]).lock).get j))
      ∧ (((⟨((3 : Nat), true, PUnit.unit)⟩ : locker_t [ty.nat, ty.bool]).store
            ⟨0, by decide⟩ (7 : Nat)).lock).get ⟨0, by decide⟩ = (7 : Nat)) :=
  ⟨by decide,
    C8_locker_access [ty.nat, ty.bool] ⟨((3 : Nat), true, PUnit.unit)⟩ ty.bool
      ⟨0, by decide⟩ (7 : Nat) (by decide)⟩

/-- C9: `push`, `emplace`, bulk `push` and `pop` never modify the active
flag (`empty` and the `active()` getter are reads, returning a `Bool` and no
state); `pop` removes at most the front element, leaving the remaining items
unchanged and in order (the popped optional prepended to the remaining queue
is the original queue); the setter, `clear`, and the destructor (which calls
`clear()`) are the operations that do set the flag. -/
theorem C9_frame_effects (T : Type) (s : async_queue T) (t : T) (ts : List T)
    (b : Bool) :
    (emplace s t).1.m_active = s.m_active
    ∧ (push s t).1.m_active = s.m_active
    ∧ (push_bulk s ts).1.m_active = s.m_active
    ∧ (pop s).2.m_active = s.m_active
    ∧ s.m_queue = (pop s).1.toList ++ (pop s).2.m_queue
    ∧ (active_set s b).1.m_active = b
    ∧ (clear s b).2.1.m_active = b
    ∧ (destroy s).2.1.m_active = false := by
  obtain ⟨q, a⟩ := s
  cases a <;> cases q <;>
    simp [emplace, push, push_bulk, pop, active_set, clear, destroy]

/-- C10: `clear` is exhaustive and items are delivered at most once: right
after `clear a` the live sequence is empty, a second `clear b` with no
intervening pushes returns the empty sequence, and `pop` on the cleared
state returns no value, so no item returned by `clear` can be returned
again. -/
theorem C10_clear_exhaustive (T : Type) (s : async_queue T) (a b : Bool) :
    (clear s a).1 = s.m_queue
    ∧ (clear s a).2.1.m_queue = []
    ∧ empty (clear s a).2.1 = true
    ∧ (clear (clear s a).2.1 b).1 = []
    ∧ (pop (clear s a).2.1).1 = none := by
  simp [clear, empty, pop]

end KT
